import Mathlib

/-!
Tensor coprocessor demo: Instruction Interface and Pipeline Orchestrator.

A shallow embedding of `sw/dsa/libcxt-conv2d.h` (the three custom instructions)
and `sw/rtos_demo/main.c` (the descriptor writes, the two-stage pipeline and the
checksum loop), followed by the properties of the design document that can be
stated over it.

Conventions of the embedding.

* The architectural state the program writes is a `Machine`: the `mxstatus`
  control register and a byte-addressed memory holding the descriptor region.
* Everything the program does that is visible from outside (console output,
  control-register writes, volatile stores and loads, custom instructions) is
  recorded, in program order, in a trace of `Action`s.
* What the hardware answers is a parameter (`World`): the value the coprocessor
  deposits in the destination register of each custom instruction and the bytes
  the checksum loop reads from the output buffer.
* Unsigned machine integers are natural numbers; a conversion to a fixed width
  is written as an explicit `% 2 ^ w`.
-/

namespace CnnDemo

/-! ## Instruction Interface (`sw/dsa/libcxt-conv2d.h`) -/

/-- A source operand of an R-type instruction: register `a0` or `a1` with the
value it holds when the instruction issues, or the hard-wired zero register. -/
inductive Operand where
  | a0 (val : Nat)
  | a1 (val : Nat)
  | x0
  deriving DecidableEq

/-- One issued `.insn r opcode, funct3, funct7, rd, rs1, rs2`. The destination
register is an output and is not part of what is issued. -/
structure Issue where
  opcode : Nat
  funct3 : Nat
  funct7 : Nat
  rs1 : Operand
  rs2 : Operand
  deriving DecidableEq

/-- A byte. -/
abbrev Byte := Fin 256

/-- The architectural state written by the program. -/
structure Machine where
  mxstatus : Nat
  mem : Nat → Byte

/-- The coprocessor seen from the issuing hart: the value it deposits in the
destination register for an instruction issued in a given machine state. -/
abbrev Coprocessor := Issue → Machine → Nat

/-- The function `__riscv_xt_conv2d`: `.insn r 0x2b, 1, 0, rd, a0, a1`; returns
the issued instruction together with `rd`. -/
def __riscv_xt_conv2d (cop : Coprocessor) (m : Machine) (in_ptr w_ptr _params : Nat) :
    Issue × Nat :=
  let rs1 := Operand.a0 in_ptr
  let rs2 := Operand.a1 w_ptr
  let issued : Issue := { opcode := 0x2b, funct3 := 1, funct7 := 0, rs1 := rs1, rs2 := rs2 }
  let rd := cop issued m
  (issued, rd)

/-- The function `__riscv_xt_maxpool2d`: `.insn r 0x2b, 2, 0, rd, a0, x0`. -/
def __riscv_xt_maxpool2d (cop : Coprocessor) (m : Machine) (in_ptr _params : Nat) :
    Issue × Nat :=
  let rs1 := Operand.a0 in_ptr
  let issued : Issue :=
    { opcode := 0x2b, funct3 := 2, funct7 := 0, rs1 := rs1, rs2 := Operand.x0 }
  let rd := cop issued m
  (issued, rd)

/-- The function `__riscv_xt_act`: `.insn r 0x2b, 3, 0, rd, a0, x0`. -/
def __riscv_xt_act (cop : Coprocessor) (m : Machine) (in_ptr _params : Nat) :
    Issue × Nat :=
  let rs1 := Operand.a0 in_ptr
  let issued : Issue :=
    { opcode := 0x2b, funct3 := 3, funct7 := 0, rs1 := rs1, rs2 := Operand.x0 }
  let rd := cop issued m
  (issued, rd)

/-! ## Pipeline Orchestrator (`sw/rtos_demo/main.c`) -/

/-- The constant `DMA_BASE`. -/
def DMA_BASE : Nat := 0x88000000

/-- The value of `sizeof(input_tensor)`, for `uint8_t input_tensor[32*32*3]`. -/
def sizeof_input_tensor : Nat := 32 * 32 * 3

/-- The value of `sizeof(weights_tensor)`, for `uint8_t weights_tensor[3*3*16]`. -/
def sizeof_weights_tensor : Nat := 3 * 3 * 16

/-- The value of `sizeof(output_tensor)`, for `uint8_t output_tensor[30*30*16]`. -/
def sizeof_output_tensor : Nat := 30 * 30 * 16

/-- The size in bytes of one element of the tensor buffers (`uint8_t`). -/
def sizeof_uint8_t : Nat := 1

/-- Little-endian store of the `n` low bytes of `val` at `addr`. -/
def store (mem : Nat → Byte) (addr n val : Nat) : Nat → Byte :=
  fun a =>
    if addr ≤ a ∧ a < addr + n then
      ⟨val / 256 ^ (a - addr) % 256, Nat.mod_lt _ (by decide)⟩
    else mem a

/-- Little-endian load of `n` bytes at `addr`. -/
def load (mem : Nat → Byte) (addr : Nat) : Nat → Nat
  | 0 => 0
  | n + 1 => (mem addr).val + 256 * load mem (addr + 1) n

/-- The function `write32`: `*(volatile uint32_t *)addr = val`. -/
def write32 (addr val : Nat) (m : Machine) : Machine :=
  { m with mem := store m.mem addr 4 (val % 2 ^ 32) }

/-- The function `write64`: `*(volatile uint64_t *)addr = val`. -/
def write64 (addr val : Nat) (m : Machine) : Machine :=
  { m with mem := store m.mem addr 8 (val % 2 ^ 64) }

/-- The function `enable_cop`: `csrw mxstatus, 0xc1038100`. The register is
modelled as holding the value of the C operand. -/
def enable_cop (m : Machine) : Machine :=
  { m with mxstatus := 0xc1038100 }

/-- Reading a 32-bit field of the descriptor region back. -/
def read32 (m : Machine) (addr : Nat) : Nat := load m.mem addr 4

/-- Reading a 64-bit field of the descriptor region back. -/
def read64 (m : Machine) (addr : Nat) : Nat := load m.mem addr 8

/-- The externally visible actions of `main`, in the order of the source. -/
inductive Action where
  /-- The call `printf("cnn demo start\n")`. -/
  | print_start
  /-- The instruction `csrw mxstatus, val`. -/
  | csrw_mxstatus (val : Nat)
  /-- A call `write64(addr, val)`. -/
  | write64 (addr val : Nat)
  /-- A call `write32(addr, val)`. -/
  | write32 (addr val : Nat)
  /-- A custom coprocessor instruction. -/
  | insn (issued : Issue)
  /-- The call `printf("conv failed %lu\n", (unsigned long)status)`; the cast is
  between unsigned types of the same width on this target. -/
  | print_conv_failed (code : Nat)
  /-- The call `printf("act failed %lu\n", (unsigned long)status)`. -/
  | print_act_failed (code : Nat)
  /-- The volatile read of one byte of `output_tensor` by the checksum loop. -/
  | load8 (addr : Nat)
  /-- The call `printf("cnn done checksum=0x%08x\n", checksum)`. -/
  | print_done (checksum : Nat)
  /-- Entering `while (1) wfi`. -/
  | wfi
  deriving DecidableEq

/-- How `main` ends: it returns a value, or it enters the idle loop for ever. -/
inductive Outcome where
  | returned (code : Int)
  | idle
  deriving DecidableEq

/-- The machine together with the trace of actions so far. -/
structure Sys where
  machine : Machine
  trace : List Action

/-- Append one action that leaves the machine state alone. -/
def Sys.emit (a : Action) (s : Sys) : Sys :=
  { s with trace := s.trace ++ [a] }

/-- The call `enable_cop()` with its trace entry. -/
def Sys.enable_cop (s : Sys) : Sys :=
  { machine := CnnDemo.enable_cop s.machine
    trace := s.trace ++ [Action.csrw_mxstatus (CnnDemo.enable_cop s.machine).mxstatus] }

/-- The call `write32(addr, val)` with its trace entry. -/
def Sys.write32 (addr val : Nat) (s : Sys) : Sys :=
  { machine := CnnDemo.write32 addr val s.machine
    trace := s.trace ++ [Action.write32 addr val] }

/-- The call `write64(addr, val)` with its trace entry. -/
def Sys.write64 (addr val : Nat) (s : Sys) : Sys :=
  { machine := CnnDemo.write64 addr val s.machine
    trace := s.trace ++ [Action.write64 addr val] }

/-- What `main` does not decide: where the linker put the three buffers, what
the coprocessor answers, and what the output buffer holds when it is read. -/
structure World where
  /-- The address `(uintptr_t)input_tensor`. -/
  input_tensor : Nat
  /-- The address `(uintptr_t)weights_tensor`. -/
  weights_tensor : Nat
  /-- The address `(uintptr_t)output_tensor`. -/
  output_tensor : Nat
  /-- The coprocessor. -/
  cop : Coprocessor
  /-- The byte `output_tensor[i]` as read by the checksum loop. -/
  output : Nat → Byte

/-- The descriptor writes of `main` (the block under "Populate dummy
parameters"), in source order. -/
def configure (w : World) (s : Sys) : Sys :=
  let s := s.write64 (DMA_BASE + 0x00) w.input_tensor
  let s := s.write64 (DMA_BASE + 0x08) w.output_tensor
  let s := s.write64 (DMA_BASE + 0x10) (sizeof_output_tensor / 16)
  let s := s.write32 (DMA_BASE + 0x18) 15
  let s := s.write32 (DMA_BASE + 0x20) 0
  let s := s.write32 (DMA_BASE + 0x40) 32
  let s := s.write32 (DMA_BASE + 0x48) 32
  let s := s.write32 (DMA_BASE + 0x50) 16
  let s := s.write32 (DMA_BASE + 0x58) 3
  let s := s.write32 (DMA_BASE + 0x60) 1
  s

/-- The checksum loop over the first `n` bytes of a buffer:
`uint32_t checksum = 0; for (i = 0; i < n; ++i) checksum += buf[i];`. -/
def checksum_loop (buf : Nat → Byte) (n : Nat) : Nat :=
  (List.range n).foldl (fun checksum i => (checksum + (buf i).val) % 2 ^ 32) 0

/-- The volatile reads the checksum loop performs, in order. -/
def checksum_loads (base n : Nat) : List Action :=
  (List.range n).map (fun i => Action.load8 (base + i))

/-- The result of running `main`. -/
structure Run where
  outcome : Outcome
  trace : List Action
  machine : Machine

/-- The part of `main` after `enable_cop()`: Configure, the two stages, Verify
and Done. -/
def pipeline (w : World) (s : Sys) : Run :=
  let s := configure w s
  let conv := __riscv_xt_conv2d w.cop s.machine w.input_tensor w.weights_tensor 0
  let s := s.emit (Action.insn conv.1)
  let status := conv.2
  if status ≠ 0 then
    let s := s.emit (Action.print_conv_failed status)
    { outcome := Outcome.returned (-1), trace := s.trace, machine := s.machine }
  else
    let act := __riscv_xt_act w.cop s.machine w.output_tensor 0
    let s := s.emit (Action.insn act.1)
    let status := act.2
    if status ≠ 0 then
      let s := s.emit (Action.print_act_failed status)
      { outcome := Outcome.returned (-2), trace := s.trace, machine := s.machine }
    else
      let checksum := checksum_loop w.output sizeof_output_tensor
      let s := { s with trace := s.trace ++ checksum_loads w.output_tensor sizeof_output_tensor }
      let s := s.emit (Action.print_done checksum)
      let s := s.emit Action.wfi
      { outcome := Outcome.idle, trace := s.trace, machine := s.machine }

/-- The function `main`, started in machine state `m`. -/
def main (w : World) (m : Machine) : Run :=
  let s : Sys := { machine := m, trace := [] }
  let s := s.emit Action.print_start
  let s := s.enable_cop
  pipeline w s

/-! ## Vocabulary for the properties -/

/-- The system state of `main` when the first coprocessor instruction issues. -/
def at_invoke (w : World) (m : Machine) : Sys :=
  configure w (Sys.enable_cop (Sys.emit Action.print_start { machine := m, trace := [] }))

/-- The status the convolution call of `main` returns. -/
def conv_status (w : World) (m : Machine) : Nat :=
  (__riscv_xt_conv2d w.cop (at_invoke w m).machine w.input_tensor w.weights_tensor 0).2

/-- The status the activation call of `main` returns (when it is reached). -/
def act_status (w : World) (m : Machine) : Nat :=
  (__riscv_xt_act w.cop (at_invoke w m).machine w.output_tensor 0).2

/-- The instruction the convolution call of `main` issues. -/
def conv_issue (w : World) : Issue :=
  { opcode := 0x2b, funct3 := 1, funct7 := 0,
    rs1 := Operand.a0 w.input_tensor, rs2 := Operand.a1 w.weights_tensor }

/-- The instruction the activation call of `main` issues. -/
def act_issue (w : World) : Issue :=
  { opcode := 0x2b, funct3 := 3, funct7 := 0,
    rs1 := Operand.a0 w.output_tensor, rs2 := Operand.x0 }

/-- The control-register write that enables the coprocessor. -/
def Action.is_enable : Action → Bool
  | Action.csrw_mxstatus _ => true
  | _ => false

/-- A store to the descriptor region. -/
def Action.is_descriptor_write : Action → Bool
  | Action.write32 _ _ => true
  | Action.write64 _ _ => true
  | _ => false

/-- Any custom coprocessor instruction. -/
def Action.is_cop : Action → Bool
  | Action.insn _ => true
  | _ => false

/-- A convolution instruction: major opcode `0x2b`, function field 1. -/
def Action.is_conv : Action → Bool
  | Action.insn i => decide (i.opcode = 0x2b ∧ i.funct3 = 1)
  | _ => false

/-- An activation instruction: major opcode `0x2b`, function field 3. -/
def Action.is_act : Action → Bool
  | Action.insn i => decide (i.opcode = 0x2b ∧ i.funct3 = 3)
  | _ => false

/-- A part of the Verify step: a read of the checksum loop or the report of the
checksum. -/
def Action.is_checksum_step : Action → Bool
  | Action.load8 _ => true
  | Action.print_done _ => true
  | _ => false

/-- A buffer holding the byte 255 everywhere. -/
def buf_full : Nat → Byte := fun _ => 255

/-- A machine with every register and memory byte zero. -/
def machine_zero : Machine := { mxstatus := 0, mem := fun _ => 0 }

/-- A world whose coprocessor answers every instruction with the same status
and whose output buffer holds the same byte everywhere. -/
def world_const (status : Nat) (b : Byte) : World :=
  { input_tensor := 0x80001000, weights_tensor := 0x80002000, output_tensor := 0x80003000
    cop := fun _ _ => status, output := fun _ => b }

/-- A world whose convolution succeeds and whose activation answers `status`. -/
def world_act (status : Nat) : World :=
  { input_tensor := 0x80001000, weights_tensor := 0x80002000, output_tensor := 0x80003000
    cop := fun i _ => if i.funct3 = 1 then 0 else status, output := fun _ => 0 }

/-- A buffer whose first `16843010 + 1` bytes sum to `2 ^ 32 - 1 + 256`: 16843010
bytes `255` followed by bytes `1`. -/
def buf_wrapping : Nat → Byte :=
  fun i => if i < 16843010 then 255 else 1

/-! ## The trace of `main` -/

theorem at_invoke_trace (w : World) (m : Machine) :
    (at_invoke w m).trace =
      [Action.print_start, Action.csrw_mxstatus 0xc1038100,
       Action.write64 (DMA_BASE + 0x00) w.input_tensor,
       Action.write64 (DMA_BASE + 0x08) w.output_tensor,
       Action.write64 (DMA_BASE + 0x10) (sizeof_output_tensor / 16),
       Action.write32 (DMA_BASE + 0x18) 15,
       Action.write32 (DMA_BASE + 0x20) 0,
       Action.write32 (DMA_BASE + 0x40) 32,
       Action.write32 (DMA_BASE + 0x48) 32,
       Action.write32 (DMA_BASE + 0x50) 16,
       Action.write32 (DMA_BASE + 0x58) 3,
       Action.write32 (DMA_BASE + 0x60) 1] := by
  simp [at_invoke, configure, Sys.write64, Sys.write32, Sys.enable_cop, Sys.emit, enable_cop]

theorem main_conv_failed (w : World) (m : Machine) (h : conv_status w m ≠ 0) :
    main w m =
      { outcome := Outcome.returned (-1)
        trace := (at_invoke w m).trace ++
          [Action.insn (conv_issue w), Action.print_conv_failed (conv_status w m)]
        machine := (at_invoke w m).machine } := by
  simp only [main, pipeline]
  rw [if_pos]
  · simp [Sys.emit, at_invoke, conv_issue, conv_status, __riscv_xt_conv2d]
  · exact h

theorem main_act_failed (w : World) (m : Machine) (h : conv_status w m = 0)
    (h2 : act_status w m ≠ 0) :
    main w m =
      { outcome := Outcome.returned (-2)
        trace := (at_invoke w m).trace ++
          [Action.insn (conv_issue w), Action.insn (act_issue w),
           Action.print_act_failed (act_status w m)]
        machine := (at_invoke w m).machine } := by
  simp only [main, pipeline]
  rw [if_neg, if_pos]
  · simp [Sys.emit, at_invoke, conv_issue, act_issue, act_status, __riscv_xt_conv2d,
      __riscv_xt_act]
  · exact h2
  · exact not_not.mpr h

theorem main_done (w : World) (m : Machine) (h : conv_status w m = 0)
    (h2 : act_status w m = 0) :
    main w m =
      { outcome := Outcome.idle
        trace := (at_invoke w m).trace ++
          (Action.insn (conv_issue w) :: Action.insn (act_issue w) ::
            (checksum_loads w.output_tensor sizeof_output_tensor ++
              [Action.print_done (checksum_loop w.output sizeof_output_tensor), Action.wfi]))
        machine := (at_invoke w m).machine } := by
  simp only [main, pipeline]
  rw [if_neg, if_neg]
  · simp [Sys.emit, at_invoke, conv_issue, act_issue, __riscv_xt_conv2d, __riscv_xt_act]
  · exact not_not.mpr h2
  · exact not_not.mpr h

theorem mem_checksum_loads (a : Action) (base n : Nat) :
    a ∈ checksum_loads base n ↔ ∃ i, i < n ∧ Action.load8 (base + i) = a := by
  simp [checksum_loads]

theorem index_cases {α : Type} (P : List α) (c : α) (post : List α) (j : Nat) (a : α)
    (h : (P ++ c :: post)[j]? = some a) :
    (j < P.length ∧ a ∈ P) ∨ (j = P.length ∧ a = c) ∨ (P.length < j ∧ a ∈ post) := by
  rcases Nat.lt_trichotomy j P.length with hlt | heq | hgt
  · rw [List.getElem?_append_left hlt] at h
    exact Or.inl ⟨hlt, List.getElem?_mem h⟩
  · subst heq
    rw [List.getElem?_append_right (Nat.le_refl _)] at h
    simp at h
    exact Or.inr (Or.inl ⟨rfl, h.symm⟩)
  · rw [List.getElem?_append_right (Nat.le_of_lt hgt)] at h
    obtain ⟨k, hk⟩ : ∃ k, j - P.length = k + 1 := ⟨j - P.length - 1, by omega⟩
    rw [hk, List.getElem?_cons_succ] at h
    exact Or.inr (Or.inr ⟨hgt, List.getElem?_mem h⟩)

theorem countP_checksum_loads (p : Action → Bool) (hp : ∀ addr, p (Action.load8 addr) = false)
    (base n : Nat) : (checksum_loads base n).countP p = 0 := by
  rw [List.countP_eq_zero]
  intro a ha
  obtain ⟨i, _, hi⟩ := (mem_checksum_loads a base n).mp ha
  rw [← hi, hp]
  simp

theorem main_trace_shape (w : World) (m : Machine) :
    ∃ post, (main w m).trace = (at_invoke w m).trace ++ Action.insn (conv_issue w) :: post ∧
      (∀ a ∈ post, a.is_conv = false ∧ a.is_descriptor_write = false ∧
        a.is_enable = false) ∧
      post.countP Action.is_act ≤ 1 ∧
      (main w m).machine = (at_invoke w m).machine := by
  by_cases h1 : conv_status w m = 0
  · by_cases h2 : act_status w m = 0
    · rw [main_done w m h1 h2]
      refine ⟨_, rfl, ?_, ?_, rfl⟩
      · intro a ha
        simp only [List.mem_cons, List.mem_append, mem_checksum_loads, List.mem_nil_iff,
          or_false] at ha
        rcases ha with ha | ⟨i, _, ha⟩ | ha | ha <;> subst ha <;>
          simp [Action.is_conv, Action.is_descriptor_write, Action.is_enable, act_issue]
      · rw [List.countP_cons, List.countP_append,
          countP_checksum_loads Action.is_act (fun _ => rfl)]
        simp [Action.is_act, act_issue]
    · rw [main_act_failed w m h1 h2]
      refine ⟨_, rfl, ?_, ?_, rfl⟩
      · simp [Action.is_conv, Action.is_descriptor_write, Action.is_enable, act_issue]
      · simp [Action.is_act, act_issue]
  · rw [main_conv_failed w m h1]
    refine ⟨_, rfl, ?_, ?_, rfl⟩
    · simp [Action.is_conv, Action.is_descriptor_write, Action.is_enable]
    · simp [Action.is_act]

/-! ## The descriptor memory -/

theorem load_store_disjoint (mem : Nat → Byte) (addr n val : Nat) (k addr2 : Nat)
    (h : addr2 + k ≤ addr ∨ addr + n ≤ addr2) :
    load (store mem addr n val) addr2 k = load mem addr2 k := by
  induction k generalizing addr2 with
  | zero => rfl
  | succ k ih =>
    have hcell : store mem addr n val addr2 = mem addr2 := by
      unfold store
      rw [if_neg]
      omega
    simp only [load, hcell]
    rw [ih (addr2 + 1) (by omega)]

theorem load_store_offset (mem : Nat → Byte) (addr n val : Nat) (k j : Nat)
    (h : j + k ≤ n) :
    load (store mem addr n val) (addr + j) k = val / 256 ^ j % 256 ^ k := by
  induction k generalizing j with
  | zero => simp [load, Nat.mod_one]
  | succ k ih =>
    have hcell : (store mem addr n val (addr + j)).val = val / 256 ^ j % 256 := by
      unfold store
      rw [if_pos (by omega)]
      simp
    simp only [load, hcell]
    rw [Nat.add_assoc, ih (j + 1) (by omega), Nat.pow_succ, ← Nat.div_div_eq_div_mul,
      Nat.pow_succ, Nat.mul_comm (256 ^ k) 256, Nat.mod_mul]

theorem load_store_same (mem : Nat → Byte) (addr n val : Nat) :
    load (store mem addr n val) addr n = val % 256 ^ n := by
  have h := load_store_offset mem addr n val n 0 (by omega)
  simpa using h

theorem configure_fields (w : World) (s : Sys) :
    read64 (configure w s).machine (DMA_BASE + 0x00) = w.input_tensor % 2 ^ 64 ∧
      read64 (configure w s).machine (DMA_BASE + 0x08) = w.output_tensor % 2 ^ 64 ∧
      read64 (configure w s).machine (DMA_BASE + 0x10) = sizeof_output_tensor / 16 ∧
      read32 (configure w s).machine (DMA_BASE + 0x18) = 15 ∧
      read32 (configure w s).machine (DMA_BASE + 0x20) = 0 ∧
      read32 (configure w s).machine (DMA_BASE + 0x40) = 32 ∧
      read32 (configure w s).machine (DMA_BASE + 0x48) = 32 ∧
      read32 (configure w s).machine (DMA_BASE + 0x50) = 16 ∧
      read32 (configure w s).machine (DMA_BASE + 0x58) = 3 ∧
      read32 (configure w s).machine (DMA_BASE + 0x60) = 1 := by
  simp only [configure, Sys.write64, Sys.write32, write64, write32, read64, read32, DMA_BASE,
    sizeof_output_tensor]
  refine ⟨?_, ?_, ?_, ?_, ?_, ?_, ?_, ?_, ?_, ?_⟩ <;>
    simp (disch := omega) only [load_store_disjoint, load_store_same] <;> omega

/-! ## The checksum loop -/

theorem checksum_loop_succ (buf : Nat → Byte) (n : Nat) :
    checksum_loop buf (n + 1) = (checksum_loop buf n + (buf n).val) % 2 ^ 32 := by
  simp [checksum_loop, List.range_succ, List.foldl_append]

theorem checksum_loop_eq_sum_mod (buf : Nat → Byte) (n : Nat) :
    checksum_loop buf n = (Finset.range n).sum (fun i => (buf i).val) % 2 ^ 32 := by
  induction n with
  | zero => simp [checksum_loop]
  | succ n ih => rw [checksum_loop_succ, ih, Finset.sum_range_succ, Nat.mod_add_mod]

theorem byte_sum_le (buf : Nat → Byte) (n : Nat) :
    (Finset.range n).sum (fun i => (buf i).val) ≤ n * 255 := by
  induction n with
  | zero => simp
  | succ n ih =>
    rw [Finset.sum_range_succ]
    have := (buf n).isLt
    omega

theorem byte_sum_mono (buf : Nat → Byte) (k n : Nat) (h : k ≤ n) :
    (Finset.range k).sum (fun i => (buf i).val) ≤
      (Finset.range n).sum (fun i => (buf i).val) :=
  Finset.sum_le_sum_of_subset (Finset.range_mono h)

theorem byte_sum_const (buf : Nat → Byte) (n b : Nat) (h : ∀ i, i < n → (buf i).val = b) :
    (Finset.range n).sum (fun i => (buf i).val) = n * b := by
  rw [Finset.sum_congr rfl (fun i hi => h i (Finset.mem_range.mp hi))]
  simp

theorem buf_wrapping_low (i : Nat) (h : i < 16843010) : (buf_wrapping i).val = 255 := by
  unfold buf_wrapping
  rw [if_pos h]
  rfl

theorem buf_wrapping_last : (buf_wrapping 16843010).val = 1 := by
  unfold buf_wrapping
  rw [if_neg (Nat.lt_irrefl _)]
  rfl

theorem buf_wrapping_sum_aux (n : Nat) (hn : n = 16843010) :
    (Finset.range (n + 1)).sum (fun i => (buf_wrapping i).val) = 2 ^ 32 - 1 + 256 := by
  rw [Finset.sum_range_succ,
    byte_sum_const buf_wrapping n 255 (fun i hi => buf_wrapping_low i (hn ▸ hi))]
  subst hn
  rw [buf_wrapping_last]
  norm_num

theorem buf_wrapping_checksum_aux (n : Nat) (hn : n = 16843010) :
    checksum_loop buf_wrapping (n + 1) = 255 := by
  rw [checksum_loop_eq_sum_mod, buf_wrapping_sum_aux n hn]
  norm_num

theorem main_reports_checksum (w : World) (m : Machine) (h1 : conv_status w m = 0)
    (h2 : act_status w m = 0) (c : Nat) :
    Action.print_done c ∈ (main w m).trace ↔
      c = checksum_loop w.output sizeof_output_tensor := by
  rw [main_done w m h1 h2, at_invoke_trace]
  simp [mem_checksum_loads]

/-! ## Instruction Interface -/

/-- C5: each operation of the Instruction Interface issues major opcode `0x2b`
with its own function field (convolution 1, pooling 2, activation 3), funct7 0
and the source operands `(a0 = in_ptr, a1 = w_ptr)` for the convolution and
`(a0 = in_ptr, x0)` for the other two; it returns the value the coprocessor
deposits in the destination register unchanged; and neither the issued
instruction nor the returned value depends on `params`. -/
theorem instruction_interface_encoding (cop : Coprocessor) (m : Machine)
    (in_ptr w_ptr params params2 : Nat) :
    (__riscv_xt_conv2d cop m in_ptr w_ptr params).1 =
        { opcode := 0x2b, funct3 := 1, funct7 := 0,
          rs1 := Operand.a0 in_ptr, rs2 := Operand.a1 w_ptr } ∧
      (__riscv_xt_maxpool2d cop m in_ptr params).1 =
        { opcode := 0x2b, funct3 := 2, funct7 := 0,
          rs1 := Operand.a0 in_ptr, rs2 := Operand.x0 } ∧
      (__riscv_xt_act cop m in_ptr params).1 =
        { opcode := 0x2b, funct3 := 3, funct7 := 0,
          rs1 := Operand.a0 in_ptr, rs2 := Operand.x0 } ∧
      (__riscv_xt_conv2d cop m in_ptr w_ptr params).2 =
        cop (__riscv_xt_conv2d cop m in_ptr w_ptr params).1 m ∧
      (__riscv_xt_maxpool2d cop m in_ptr params).2 =
        cop (__riscv_xt_maxpool2d cop m in_ptr params).1 m ∧
      (__riscv_xt_act cop m in_ptr params).2 =
        cop (__riscv_xt_act cop m in_ptr params).1 m ∧
      __riscv_xt_conv2d cop m in_ptr w_ptr params =
        __riscv_xt_conv2d cop m in_ptr w_ptr params2 ∧
      __riscv_xt_maxpool2d cop m in_ptr params = __riscv_xt_maxpool2d cop m in_ptr params2 ∧
      __riscv_xt_act cop m in_ptr params = __riscv_xt_act cop m in_ptr params2 :=
  ⟨rfl, rfl, rfl, rfl, rfl, rfl, rfl, rfl, rfl⟩

/-! ## Failure handling -/

/-- C1: when the convolution returns a nonzero status `s`, `main` reports `s`
unchanged as the convolution failure code (its last action, and the only
convolution failure report), returns `-1`, and its trace holds no activation
instruction, no activation failure report and no step of the checksum. -/
theorem conv_failure_short_circuits (w : World) (m : Machine) (s : Nat) (hs : s ≠ 0)
    (hconv : conv_status w m = s) :
    (main w m).outcome = Outcome.returned (-1) ∧
      (main w m).trace.getLast? = some (Action.print_conv_failed s) ∧
      (∀ c, Action.print_conv_failed c ∈ (main w m).trace → c = s) ∧
      (∀ a ∈ (main w m).trace, a.is_act = false ∧ a.is_checksum_step = false) ∧
      (∀ c, Action.print_act_failed c ∉ (main w m).trace) := by
  subst hconv
  rw [main_conv_failed w m hs, at_invoke_trace]
  simp [Action.is_act, Action.is_checksum_step, conv_issue]

/-- C1 at the status 7 of the failure scenario. -/
theorem conv_failure_short_circuits_witness :
    (7 ≠ 0 ∧ conv_status (world_const 7 0) machine_zero = 7) ∧
      (main (world_const 7 0) machine_zero).outcome = Outcome.returned (-1) ∧
      (main (world_const 7 0) machine_zero).trace.getLast? =
        some (Action.print_conv_failed 7) ∧
      (∀ c, Action.print_conv_failed c ∈ (main (world_const 7 0) machine_zero).trace →
        c = 7) ∧
      (∀ a ∈ (main (world_const 7 0) machine_zero).trace,
        a.is_act = false ∧ a.is_checksum_step = false) ∧
      (∀ c, Action.print_act_failed c ∉ (main (world_const 7 0) machine_zero).trace) :=
  ⟨⟨by decide, rfl⟩,
    conv_failure_short_circuits (world_const 7 0) machine_zero 7 (by decide) rfl⟩

/-- C3: when the convolution returns 0 and the activation a nonzero status `s`,
`main` reports `s` unchanged as the activation failure code, returns `-2` and
runs no step of the checksum. For all statuses: `main` returns `-1` exactly when
the convolution status is nonzero, returns `-2` exactly when the convolution
status is 0 and the activation status is nonzero, and reaches the idle loop,
having computed and reported the checksum, exactly when both are 0. -/
theorem act_failure_and_outcomes (w : World) (m : Machine) :
    (∀ s, s ≠ 0 → conv_status w m = 0 → act_status w m = s →
        (main w m).outcome = Outcome.returned (-2) ∧
        (main w m).trace.getLast? = some (Action.print_act_failed s) ∧
        (∀ c, Action.print_act_failed c ∈ (main w m).trace → c = s) ∧
        (∀ c, Action.print_conv_failed c ∉ (main w m).trace) ∧
        (∀ a ∈ (main w m).trace, a.is_checksum_step = false)) ∧
      ((main w m).outcome = Outcome.returned (-1) ↔ conv_status w m ≠ 0) ∧
      ((main w m).outcome = Outcome.returned (-2) ↔
        conv_status w m = 0 ∧ act_status w m ≠ 0) ∧
      ((main w m).outcome = Outcome.idle ↔ conv_status w m = 0 ∧ act_status w m = 0) ∧
      ((∃ a ∈ (main w m).trace, a.is_checksum_step = true) ↔
        conv_status w m = 0 ∧ act_status w m = 0) ∧
      (Action.print_done (checksum_loop w.output sizeof_output_tensor) ∈ (main w m).trace ↔
        conv_status w m = 0 ∧ act_status w m = 0) := by
  by_cases h1 : conv_status w m = 0
  · by_cases h2 : act_status w m = 0
    · rw [main_done w m h1 h2, at_invoke_trace]
      refine ⟨fun s hs _ hact => absurd (hact.symm.trans h2) hs, ?_, ?_, ?_, ?_, ?_⟩
      · simp [h1]
      · simp [h1, h2]
      · simp [h1, h2]
      · simp only [h1, h2, and_self, iff_true]
        exact ⟨Action.print_done (checksum_loop w.output sizeof_output_tensor),
          by simp, rfl⟩
      · simp [h1, h2]
    · rw [main_act_failed w m h1 h2, at_invoke_trace]
      refine ⟨?_, ?_, ?_, ?_, ?_, ?_⟩
      · intro s _ _ hact
        subst hact
        simp [Action.is_checksum_step]
      · simp [h1]
      · simp [h1, h2]
      · simp [h1, h2]
      · simp [h1, h2, Action.is_checksum_step]
      · simp [h1, h2]
  · rw [main_conv_failed w m h1, at_invoke_trace]
    refine ⟨fun s _ hconv _ => absurd hconv h1, ?_, ?_, ?_, ?_, ?_⟩
    · simp [h1]
    · simp [h1]
    · simp [h1]
    · simp [h1, Action.is_checksum_step]
    · simp [h1]

/-- C3 at convolution status 0 and activation status 5. -/
theorem act_failure_and_outcomes_witness :
    ((5 : Nat) ≠ 0 ∧ conv_status (world_act 5) machine_zero = 0 ∧
        act_status (world_act 5) machine_zero = 5) ∧
      (main (world_act 5) machine_zero).outcome = Outcome.returned (-2) ∧
      (main (world_act 5) machine_zero).trace.getLast? = some (Action.print_act_failed 5) ∧
      (∀ c, Action.print_act_failed c ∈ (main (world_act 5) machine_zero).trace → c = 5) ∧
      (∀ c, Action.print_conv_failed c ∉ (main (world_act 5) machine_zero).trace) ∧
      (∀ a ∈ (main (world_act 5) machine_zero).trace, a.is_checksum_step = false) :=
  ⟨⟨by decide, rfl, rfl⟩,
    (act_failure_and_outcomes (world_act 5) machine_zero).1 5 (by decide) rfl rfl⟩

/-! ## Enabling the coprocessor -/

/-- C9: `enable_cop` is idempotent on the machine state: a second enable leaves
`mxstatus` at `0xc1038100` and the rest of the state as it was, so the pipeline
run after two enables is the run after one (same outcome, same actions, same
final machine state). -/
theorem enable_cop_idempotent (m : Machine) :
    enable_cop (enable_cop m) = enable_cop m ∧
      (enable_cop m).mxstatus = 0xc1038100 ∧
      (enable_cop (enable_cop m)).mxstatus = 0xc1038100 ∧
      (enable_cop m).mem = m.mem ∧
      (enable_cop (enable_cop m)).mem = (enable_cop m).mem ∧
      ∀ (w : World) (t : List Action),
        pipeline w { machine := enable_cop (enable_cop m), trace := t } =
          pipeline w { machine := enable_cop m, trace := t } :=
  ⟨rfl, rfl, rfl, rfl, rfl, fun _ _ => rfl⟩

/-! ## The descriptor -/

/-- C4: after the descriptor writes of `main`, started in any state, each field
read back at its documented offset and width holds the value written there,
for all 64-bit buffer addresses (8-byte aligned or not): no write of the
sequence overlaps another field. -/
theorem descriptor_readback (w : World) (s : Sys) (hA : w.input_tensor < 2 ^ 64)
    (hB : w.output_tensor < 2 ^ 64) :
    read64 (configure w s).machine (DMA_BASE + 0x00) = w.input_tensor ∧
      read64 (configure w s).machine (DMA_BASE + 0x08) = w.output_tensor ∧
      read64 (configure w s).machine (DMA_BASE + 0x10) = sizeof_output_tensor / 16 ∧
      read32 (configure w s).machine (DMA_BASE + 0x18) = 15 ∧
      read32 (configure w s).machine (DMA_BASE + 0x20) = 0 ∧
      read32 (configure w s).machine (DMA_BASE + 0x40) = 32 ∧
      read32 (configure w s).machine (DMA_BASE + 0x48) = 32 ∧
      read32 (configure w s).machine (DMA_BASE + 0x50) = 16 ∧
      read32 (configure w s).machine (DMA_BASE + 0x58) = 3 ∧
      read32 (configure w s).machine (DMA_BASE + 0x60) = 1 := by
  have h := configure_fields w s
  rw [Nat.mod_eq_of_lt hA, Nat.mod_eq_of_lt hB] at h
  exact h

/-- C4 at the 64-byte-aligned addresses `0x80001000` and `0x80003000`. -/
theorem descriptor_readback_witness :
    ((world_const 0 0).input_tensor < 2 ^ 64 ∧ (world_const 0 0).output_tensor < 2 ^ 64 ∧
        (world_const 0 0).input_tensor % 8 = 0 ∧ (world_const 0 0).output_tensor % 8 = 0) ∧
      read64 (at_invoke (world_const 0 0) machine_zero).machine (DMA_BASE + 0x00) =
        0x80001000 ∧
      read64 (at_invoke (world_const 0 0) machine_zero).machine (DMA_BASE + 0x08) =
        0x80003000 :=
  ⟨⟨by decide, by decide, by decide, by decide⟩,
    (descriptor_readback (world_const 0 0) _ (by decide) (by decide)).1,
    (descriptor_readback (world_const 0 0) _ (by decide) (by decide)).2.1⟩

/-- C6 as stated fails: the count written at offset `0x10` is not the byte
length of the output buffer divided by the size of one of its elements. -/
theorem element_count_counterexample :
    read64 (at_invoke (world_const 0 0) machine_zero).machine (DMA_BASE + 0x10) ≠
      sizeof_output_tensor / sizeof_uint8_t := by
  rw [at_invoke, (configure_fields (world_const 0 0) _).2.2.1]
  decide

/-- C6, amended: the count written at offset `0x10` is the byte length of the
output buffer divided by 16, that is 900, one per group of 16 one-byte
elements; it is the byte length divided by the element size only if 16
elements are taken as one. -/
theorem element_count_written (w : World) (s : Sys) :
    read64 (configure w s).machine (DMA_BASE + 0x10) = sizeof_output_tensor / 16 ∧
      read64 (configure w s).machine (DMA_BASE + 0x10) = 900 ∧
      read64 (configure w s).machine (DMA_BASE + 0x10) =
        sizeof_output_tensor / (16 * sizeof_uint8_t) ∧
      sizeof_output_tensor / sizeof_uint8_t = 14400 := by
  rw [(configure_fields w s).2.2.1]
  decide

/-- C7: the shape fields of the descriptor (width 32, height 32, output channels
16, kernel size 3, stride 1) agree with the byte lengths of the three buffers:
`W*H*3` is the input length, `((W-K)/S+1)*((H-K)/S+1)*C` the output length and
`K*K*C` the weight length. -/
theorem shape_fields_match_buffers (w : World) (s : Sys) :
    ∃ W H C K S : Nat,
      read32 (configure w s).machine (DMA_BASE + 0x40) = W ∧
      read32 (configure w s).machine (DMA_BASE + 0x48) = H ∧
      read32 (configure w s).machine (DMA_BASE + 0x50) = C ∧
      read32 (configure w s).machine (DMA_BASE + 0x58) = K ∧
      read32 (configure w s).machine (DMA_BASE + 0x60) = S ∧
      (W = 32 ∧ H = 32 ∧ C = 16 ∧ K = 3 ∧ S = 1) ∧
      W * H * 3 = sizeof_input_tensor ∧
      ((W - K) / S + 1) * ((H - K) / S + 1) * C = sizeof_output_tensor ∧
      sizeof_output_tensor = 30 * 30 * 16 ∧
      K * K * C = sizeof_weights_tensor ∧
      sizeof_weights_tensor = 3 * 3 * 16 := by
  obtain ⟨_, _, _, _, _, hW, hH, hC, hK, hS⟩ := configure_fields w s
  exact ⟨32, 32, 16, 3, 1, hW, hH, hC, hK, hS, by decide, by decide, by decide, by decide,
    by decide, by decide⟩

/-! ## The checksum -/

/-- C2: the checksum loop over the first `n` bytes of any buffer returns the sum
of those bytes modulo `2 ^ 32`, also when the sum exceeds `2 ^ 32 - 1` (a buffer
whose bytes sum to `2 ^ 32 - 1 + 256` gives 255); and when convolution and
activation both return 0, the one checksum `main` reports is the sum of the
`30*30*16` bytes of the output buffer modulo `2 ^ 32`. -/
theorem checksum_is_sum_mod (buf : Nat → Byte) (n : Nat) (w : World) (m : Machine) :
    checksum_loop buf n = (Finset.range n).sum (fun i => (buf i).val) % 2 ^ 32 ∧
      ((Finset.range (16843010 + 1)).sum (fun i => (buf_wrapping i).val) =
          2 ^ 32 - 1 + 256 ∧
        checksum_loop buf_wrapping (16843010 + 1) = 255) ∧
      (conv_status w m = 0 → act_status w m = 0 →
        ∀ c, Action.print_done c ∈ (main w m).trace ↔
          c = (Finset.range (30 * 30 * 16)).sum (fun i => (w.output i).val) % 2 ^ 32) := by
  have hs : sizeof_output_tensor = 30 * 30 * 16 := rfl
  refine ⟨checksum_loop_eq_sum_mod buf n,
    ⟨buf_wrapping_sum_aux 16843010 rfl, buf_wrapping_checksum_aux 16843010 rfl⟩, ?_⟩
  intro h1 h2 c
  rw [main_reports_checksum w m h1 h2, checksum_loop_eq_sum_mod, hs]

/-- C2 on a run in which both stages succeed. -/
theorem checksum_is_sum_mod_witness :
    (conv_status (world_const 0 255) machine_zero = 0 ∧
        act_status (world_const 0 255) machine_zero = 0) ∧
      ∀ c, Action.print_done c ∈ (main (world_const 0 255) machine_zero).trace ↔
        c = (Finset.range (30 * 30 * 16)).sum
          (fun i => ((world_const 0 255).output i).val) % 2 ^ 32 :=
  ⟨⟨rfl, rfl⟩,
    (checksum_is_sum_mod (fun _ => 0) 0 (world_const 0 255) machine_zero).2.2 rfl rfl⟩

/-- C10: for every content of the 14400-byte output buffer the sum of the bytes
is at most `14400 * 255 = 3672000 < 2 ^ 32`; at every iteration `k` of the
checksum loop the addition does not wrap; and the checksum computed, which is
the one `main` reports when both stages succeed, is the exact sum. -/
theorem checksum_never_wraps (buf : Nat → Byte) (k : Nat) (hk : k < sizeof_output_tensor) :
    (Finset.range sizeof_output_tensor).sum (fun i => (buf i).val) ≤
        sizeof_output_tensor * 255 ∧
      (sizeof_output_tensor = 14400 ∧ sizeof_output_tensor * 255 = 3672000 ∧
        3672000 < 2 ^ 32) ∧
      checksum_loop buf k + (buf k).val < 2 ^ 32 ∧
      checksum_loop buf (k + 1) = checksum_loop buf k + (buf k).val ∧
      checksum_loop buf sizeof_output_tensor =
        (Finset.range sizeof_output_tensor).sum (fun i => (buf i).val) ∧
      ∀ (w : World) (m : Machine), w.output = buf → conv_status w m = 0 →
        act_status w m = 0 →
        ∀ c, Action.print_done c ∈ (main w m).trace ↔
          c = (Finset.range sizeof_output_tensor).sum (fun i => (buf i).val) := by
  have hsz : sizeof_output_tensor = 14400 := by decide
  have hle := byte_sum_le buf sizeof_output_tensor
  have hall : ∀ j, j ≤ sizeof_output_tensor →
      (Finset.range j).sum (fun i => (buf i).val) < 2 ^ 32 := by
    intro j hj
    have h1 := byte_sum_mono buf j sizeof_output_tensor hj
    omega
  have hexact : ∀ j, j ≤ sizeof_output_tensor →
      checksum_loop buf j = (Finset.range j).sum (fun i => (buf i).val) := by
    intro j hj
    rw [checksum_loop_eq_sum_mod, Nat.mod_eq_of_lt (hall j hj)]
  have hstep : checksum_loop buf k + (buf k).val < 2 ^ 32 := by
    have h1 := hall (k + 1) hk
    rw [Finset.sum_range_succ] at h1
    rw [hexact k (Nat.le_of_lt hk)]
    exact h1
  refine ⟨hle, ⟨hsz, by decide, by decide⟩, hstep, ?_, hexact _ (Nat.le_refl _), ?_⟩
  · rw [checksum_loop_succ, Nat.mod_eq_of_lt hstep]
  · intro w m hbuf h1 h2 c
    rw [main_reports_checksum w m h1 h2, hbuf, hexact _ (Nat.le_refl _)]

/-- C10 at the last iteration of a buffer of bytes 255. -/
theorem checksum_never_wraps_witness :
    14399 < sizeof_output_tensor ∧
      checksum_loop buf_full 14399 + (buf_full 14399).val < 2 ^ 32 ∧
      checksum_loop buf_full sizeof_output_tensor =
        (Finset.range sizeof_output_tensor).sum (fun i => (buf_full i).val) :=
  ⟨by decide, (checksum_never_wraps buf_full 14399 (by decide)).2.2.1,
    (checksum_never_wraps buf_full 14399 (by decide)).2.2.2.2.1⟩

/-! ## Order of the actions -/

/-- C8: in the trace of every run of `main`: the control-register write that
enables the coprocessor occurs exactly once, and every coprocessor instruction
has it earlier in the trace; there are ten descriptor writes, and the ones
before a convolution instruction are all ten, in source order; there is at most
one convolution and at most one activation instruction, and an activation has a
convolution earlier in the trace; nothing after a convolution instruction is a
descriptor write or an enable, and the machine state `main` ends with is the one
in which the convolution issued. -/
theorem main_trace_order (w : World) (m : Machine) :
    (main w m).trace.countP Action.is_enable = 1 ∧
      (∀ (j : Nat) (a : Action), (main w m).trace[j]? = some a → a.is_cop = true →
        ∃ (i : Nat) (b : Action), i < j ∧ (main w m).trace[i]? = some b ∧ b.is_enable = true) ∧
      (main w m).trace.countP Action.is_descriptor_write = 10 ∧
      (∀ (j : Nat) (a : Action), (main w m).trace[j]? = some a → a.is_conv = true →
        ((main w m).trace.take j).filter Action.is_descriptor_write =
          [Action.write64 (DMA_BASE + 0x00) w.input_tensor,
           Action.write64 (DMA_BASE + 0x08) w.output_tensor,
           Action.write64 (DMA_BASE + 0x10) (sizeof_output_tensor / 16),
           Action.write32 (DMA_BASE + 0x18) 15,
           Action.write32 (DMA_BASE + 0x20) 0,
           Action.write32 (DMA_BASE + 0x40) 32,
           Action.write32 (DMA_BASE + 0x48) 32,
           Action.write32 (DMA_BASE + 0x50) 16,
           Action.write32 (DMA_BASE + 0x58) 3,
           Action.write32 (DMA_BASE + 0x60) 1]) ∧
      (main w m).trace.countP Action.is_conv = 1 ∧
      (main w m).trace.countP Action.is_act ≤ 1 ∧
      (∀ (j : Nat) (a : Action), (main w m).trace[j]? = some a → a.is_act = true →
        ∃ (i : Nat) (b : Action), i < j ∧ (main w m).trace[i]? = some b ∧ b.is_conv = true) ∧
      (∀ (i k : Nat) (a b : Action), i < k → (main w m).trace[i]? = some a → a.is_conv = true →
        (main w m).trace[k]? = some b →
        b.is_descriptor_write = false ∧ b.is_enable = false) ∧
      (main w m).machine = (at_invoke w m).machine := by
  obtain ⟨post, ht, hpost, hact, hm⟩ := main_trace_shape w m
  have hlen : (at_invoke w m).trace.length = 12 := by rw [at_invoke_trace]; rfl
  have hP : ∀ a ∈ (at_invoke w m).trace,
      a.is_cop = false ∧ a.is_conv = false ∧ a.is_act = false := by
    rw [at_invoke_trace]
    simp [Action.is_cop, Action.is_conv, Action.is_act]
  have hen : (at_invoke w m).trace.countP Action.is_enable = 1 := by
    rw [at_invoke_trace]
    simp [Action.is_enable, List.countP_cons]
  have hwr : (at_invoke w m).trace.filter Action.is_descriptor_write =
      [Action.write64 (DMA_BASE + 0x00) w.input_tensor,
       Action.write64 (DMA_BASE + 0x08) w.output_tensor,
       Action.write64 (DMA_BASE + 0x10) (sizeof_output_tensor / 16),
       Action.write32 (DMA_BASE + 0x18) 15,
       Action.write32 (DMA_BASE + 0x20) 0,
       Action.write32 (DMA_BASE + 0x40) 32,
       Action.write32 (DMA_BASE + 0x48) 32,
       Action.write32 (DMA_BASE + 0x50) 16,
       Action.write32 (DMA_BASE + 0x58) 3,
       Action.write32 (DMA_BASE + 0x60) 1] := by
    rw [at_invoke_trace]
    simp [Action.is_descriptor_write, List.filter_cons]
  have hen1 : (at_invoke w m).trace[1]? = some (Action.csrw_mxstatus 0xc1038100) := by
    rw [at_invoke_trace]
    rfl
  have hpost0 : ∀ (p : Action → Bool), (∀ a ∈ post, p a = false) → post.countP p = 0 := by
    intro p hp
    rw [List.countP_eq_zero]
    intro a ha
    simp [hp a ha]
  have hconv : (Action.insn (conv_issue w)).is_conv = true := by
    simp [Action.is_conv, conv_issue]
  have hconv_at : ∀ (j : Nat) (a : Action), (main w m).trace[j]? = some a → a.is_conv = true → j = 12 := by
    intro j a hj ha
    rw [ht] at hj
    rcases index_cases _ _ _ j a hj with ⟨_, hmem⟩ | ⟨hj2, _⟩ | ⟨_, hmem⟩
    · rw [(hP a hmem).2.1] at ha
      exact absurd ha (by decide)
    · rw [hj2, hlen]
    · rw [(hpost a hmem).1] at ha
      exact absurd ha (by decide)
  have hconv12 : (main w m).trace[12]? = some (Action.insn (conv_issue w)) := by
    rw [ht, List.getElem?_append_right (Nat.le_of_eq hlen), hlen]
    simp
  refine ⟨?_, ?_, ?_, ?_, ?_, ?_, ?_, ?_, hm⟩
  · rw [ht, List.countP_append, List.countP_cons, hen,
      hpost0 Action.is_enable (fun a ha => (hpost a ha).2.2)]
    rfl
  · intro j a hj ha
    refine ⟨1, Action.csrw_mxstatus 0xc1038100, ?_, ?_, rfl⟩
    · rw [ht] at hj
      rcases index_cases _ _ _ j a hj with ⟨_, hmem⟩ | ⟨hj2, _⟩ | ⟨hj2, _⟩
      · rw [(hP a hmem).1] at ha
        exact absurd ha (by decide)
      · omega
      · omega
    · rw [ht, List.getElem?_append_left (by omega)]
      exact hen1
  · rw [ht, List.countP_append, List.countP_cons, List.countP_eq_length_filter, hwr,
      hpost0 Action.is_descriptor_write (fun a ha => (hpost a ha).2.1)]
    rfl
  · intro j a hj ha
    rw [hconv_at j a hj ha, ht, List.take_left' hlen, hwr]
  · rw [ht, List.countP_append, List.countP_cons,
      hpost0 Action.is_conv (fun a ha => (hpost a ha).1),
      (List.countP_eq_zero).mpr (fun a ha => by simp [(hP a ha).2.1]), hconv]
    rfl
  · rw [ht, List.countP_append, List.countP_cons,
      (List.countP_eq_zero).mpr (fun a ha => by simp [(hP a ha).2.2])]
    have h0 : (Action.insn (conv_issue w)).is_act = false := by
      simp [Action.is_act, conv_issue]
    rw [h0]
    simpa using hact
  · intro j a hj ha
    refine ⟨12, Action.insn (conv_issue w), ?_, hconv12, hconv⟩
    rw [ht] at hj
    rcases index_cases _ _ _ j a hj with ⟨_, hmem⟩ | ⟨_, hj2⟩ | ⟨hj2, _⟩
    · rw [(hP a hmem).2.2] at ha
      exact absurd ha (by decide)
    · rw [hj2] at ha
      simp [Action.is_act, conv_issue] at ha
    · omega
  · intro i k a b hik hi ha hk
    have hi12 := hconv_at i a hi ha
    rw [ht] at hk
    rcases index_cases _ _ _ k b hk with ⟨hk2, _⟩ | ⟨hk2, _⟩ | ⟨_, hmem⟩
    · omega
    · omega
    · exact ⟨(hpost b hmem).2.1, (hpost b hmem).2.2⟩

/-- C8 on a run whose activation fails with status 5: the activation is the
action at index 13 and a convolution occurs before it. -/
theorem main_trace_order_witness :
    ((main (world_act 5) machine_zero).trace[13]? =
        some (Action.insn (act_issue (world_act 5))) ∧
      (Action.insn (act_issue (world_act 5))).is_act = true) ∧
      ∃ (i : Nat) (b : Action), i < 13 ∧
        (main (world_act 5) machine_zero).trace[i]? = some b ∧ b.is_conv = true :=
  ⟨⟨rfl, rfl⟩,
    (main_trace_order (world_act 5) machine_zero).2.2.2.2.2.2.1 13 _ rfl rfl⟩

end CnnDemo
